import Mathlib

/-!
Verification of the resume-analysis response-normalization pipeline.

The definitions below are a shallow embedding of the application code:

* the response normalizer and the file-text extractor of the current
  gemini service module (the unnamed service file, called part_003 in the
  source bundle, whose `AnalysisResult` carries a nested `scores` record;
  it is the service imported by the live `App.tsx`, which reads
  `results.scores.overall` etc.);
* the stored-record score derivation of the `ResumeHistory` component;
* the orchestration in `App.tsx` around upload, extraction, analysis and
  persistence.

JavaScript numbers are idealized as exact rationals extended with NaN and
the two infinities; machine floating point rounding is not modelled.
String length counts characters (the code points of the text), not UTF-16
units; the two agree on all ASCII text used here.
-/

/-- Decoded JSON values, the shape `JSON.parse` hands to the mapping code.
An object keeps its fields in written order and may repeat a key; lookup
takes the last occurrence, as the engine assignment order does. -/
inductive JVal where
  | null
  | bool (b : Bool)
  | num (q : ℚ)
  | str (s : String)
  | arr (elems : List JVal)
  | obj (fields : List (String × JVal))

/-- Field lookup in a decoded object: the last binding of the key wins. -/
def lookupField (fields : List (String × JVal)) (k : String) : Option JVal :=
  (fields.reverse.find? (fun p => p.1 == k)).map (fun p => p.2)

/-- Property access `v.k` on a guarded base: objects yield the stored
binding; numbers, strings, booleans and arrays have none of the
properties read here, giving undefined; for a null base the engine would
throw, and the source reads a property of a possibly-null base in
exactly one place — the top-level raw.score — which is modelled by the
mapping step failing on a null payload (see runMapping); every other
base is behind an optional chain or a logical-or guard. -/
def getProp : JVal → String → Option JVal
  | .obj fields, k => lookupField fields k
  | _, _ => none

/-- The nullish-coalescing operator `a ?? b`: the left operand unless it is
absent (undefined) or null. -/
def nullishOr (a : Option JVal) (b : JVal) : JVal :=
  match a with
  | some .null => b
  | some v => v
  | none => b

/-- Truthiness of a decoded value under JavaScript boolean conversion. -/
def jvalTruthy : JVal → Bool
  | .null => false
  | .bool b => b
  | .num q => decide (q ≠ 0)
  | .str s => decide (s ≠ "")
  | .arr _ => true
  | .obj _ => true

/-- JavaScript numbers: exact rationals extended with NaN and infinities. -/
inductive JSNum where
  | nan
  | pinf
  | ninf
  | fin (q : ℚ)
  deriving Repr, DecidableEq

/-- Truthiness of a JavaScript number: NaN and zero are falsy. -/
def jsTruthy : JSNum → Bool
  | .nan => false
  | .pinf => true
  | .ninf => true
  | .fin q => decide (q ≠ 0)

/-- The idiom `x || 0` applied to a number: NaN and zero collapse to 0,
anything else (infinities included) passes through. -/
def jsOr0 (x : JSNum) : JSNum :=
  if jsTruthy x then x else .fin 0

/-- Addition on JavaScript numbers. -/
def jsAdd : JSNum → JSNum → JSNum
  | .fin a, .fin b => .fin (a + b)
  | .nan, _ => .nan
  | _, .nan => .nan
  | .pinf, .ninf => .nan
  | .ninf, .pinf => .nan
  | .pinf, _ => .pinf
  | _, .pinf => .pinf
  | .ninf, _ => .ninf
  | _, .ninf => .ninf

/-- Division of a JavaScript number by a positive literal (the divisors in
the source are the literals 1 and 2). -/
def jsDivNat : JSNum → Nat → JSNum
  | .fin q, n => .fin (q / (n : ℚ))
  | x, _ => x

/-- Math.round: round half toward positive infinity; NaN and infinities
pass through. -/
def jsRound : JSNum → JSNum
  | .fin q => .fin ((⌊q + 1/2⌋ : ℤ) : ℚ)
  | x => x

/-- Characters the JavaScript runtime treats as whitespace when trimming
and when converting strings to numbers (ASCII whitespace plus no-break
space; rarer Unicode space characters are not modelled). -/
def isJsWs (c : Char) : Bool :=
  c == ' ' || c == '\t' || c == '\n' || c == '\r' || c == '\x0b' ||
    c == '\x0c' || c == ' '

/-- Whitespace trim on a character list, from both ends. -/
def trimJs (cs : List Char) : List Char :=
  ((cs.dropWhile isJsWs).reverse.dropWhile isJsWs).reverse

/-- String.prototype.trim. -/
def jsTrim (s : String) : String :=
  String.mk (trimJs s.data)

/-- Length of a string as the code reads it. -/
def jsLen (s : String) : Nat :=
  s.data.length

/-- Numeric value of a digit run read in base ten. -/
def digitsVal (cs : List Char) : Nat :=
  cs.foldl (fun a c => a * 10 + (c.toNat - 48)) 0

/-- Hexadecimal digit test. -/
def isHexDigit (c : Char) : Bool :=
  c.isDigit || ('a' ≤ c && c ≤ 'f') || ('A' ≤ c && c ≤ 'F')

/-- Value of a hexadecimal digit. -/
def hexVal (c : Char) : Nat :=
  if c.isDigit then c.toNat - 48
  else if 'a' ≤ c && c ≤ 'f' then c.toNat - 87
  else c.toNat - 55

/-- Numeric value of a digit run read in the given base. -/
def radixVal (b : Nat) (cs : List Char) : Nat :=
  cs.foldl (fun a c => a * b + hexVal c) 0

/-- Decimal numeric literal with optional fraction and exponent, consuming
the whole input; none means the text is not numeric. -/
def parseDecExp (cs : List Char) (base : ℚ) : Option ℚ :=
  match cs with
  | [] => some base
  | c :: rest =>
    if c == 'e' || c == 'E' then
      let (sgnNeg, rest2) : Bool × List Char :=
        match rest with
        | '+' :: r => (false, r)
        | '-' :: r => (true, r)
        | r => (false, r)
      let ds := rest2.takeWhile Char.isDigit
      let rest3 := rest2.dropWhile Char.isDigit
      if ds = [] || rest3 ≠ [] then none
      else if sgnNeg then some (base / (10 : ℚ) ^ digitsVal ds)
      else some (base * (10 : ℚ) ^ digitsVal ds)
    else none

/-- Unsigned decimal literal: digits, optional fraction, optional
exponent; the whole input must be consumed. -/
def parseDec (cs : List Char) : Option ℚ :=
  let ip := cs.takeWhile Char.isDigit
  let rest1 := cs.dropWhile Char.isDigit
  match rest1 with
  | '.' :: rest2 =>
    let fp := rest2.takeWhile Char.isDigit
    let rest3 := rest2.dropWhile Char.isDigit
    if ip = [] && fp = [] then none
    else parseDecExp rest3
      ((digitsVal ip : ℚ) + (digitsVal fp : ℚ) / (10 : ℚ) ^ fp.length)
  | _ => if ip = [] then none else parseDecExp rest1 (digitsVal ip)

/-- Unsigned numeric string body as Number() reads it: Infinity, a radix
prefixed integer (0x, 0o, 0b), or a decimal literal. -/
def parseUnsignedJs (cs : List Char) : JSNum :=
  match cs with
  | 'I' :: 'n' :: 'f' :: 'i' :: 'n' :: 'i' :: 't' :: 'y' :: [] => .pinf
  | '0' :: x :: rest =>
    if (x == 'x' || x == 'X') && rest ≠ [] && rest.all isHexDigit then
      .fin (radixVal 16 rest)
    else if (x == 'o' || x == 'O') && rest ≠ [] &&
        rest.all (fun c => '0' ≤ c && c ≤ '7') then
      .fin (radixVal 8 rest)
    else if (x == 'b' || x == 'B') && rest ≠ [] &&
        rest.all (fun c => c == '0' || c == '1') then
      .fin (radixVal 2 rest)
    else
      match parseDec cs with
      | some q => .fin q
      | none => .nan
  | _ =>
    match parseDec cs with
    | some q => .fin q
    | none => .nan

/-- Signed numeric string body: after an explicit sign only Infinity or a
decimal literal may follow (a radix prefix after a sign is not numeric). -/
def parseSignedTail (cs : List Char) : JSNum :=
  match cs with
  | 'I' :: 'n' :: 'f' :: 'i' :: 'n' :: 'i' :: 't' :: 'y' :: [] => .pinf
  | _ =>
    match parseDec cs with
    | some q => .fin q
    | none => .nan

/-- Number() applied to a string: trim, empty means zero, optional sign,
then a numeric body; anything else is NaN. -/
def jsNumOfString (s : String) : JSNum :=
  match trimJs s.data with
  | [] => .fin 0
  | '+' :: rest => parseSignedTail rest
  | '-' :: rest =>
    match parseSignedTail rest with
    | .fin q => .fin (-q)
    | .pinf => .ninf
    | x => x
  | cs => parseUnsignedJs cs

mutual

/-- String() conversion of a decoded value. Numeric rendering is the
rational printed by Lean, an idealization of the engine float printing
that agrees on every integer; it feeds the summary text and the numeric
coercion of arrays and objects. -/
def jvalRender : JVal → String
  | .str s => s
  | .num q => toString q
  | .bool true => "true"
  | .bool false => "false"
  | .null => "null"
  | .arr xs => jvalRenderElems xs
  | .obj _ => "[object Object]"

/-- Array elements joined with commas, null elements rendered empty. -/
def jvalRenderElems : List JVal → String
  | [] => ""
  | [v] => jvalRenderElem v
  | v :: rest => jvalRenderElem v ++ "," ++ jvalRenderElems rest

/-- One array element under String() conversion. -/
def jvalRenderElem : JVal → String
  | .null => ""
  | v => jvalRender v

end

/-- Number() coercion on decoded JSON values. Numbers, strings, booleans
and null coerce directly; arrays and objects convert through their
string form, so the empty array gives 0, a single-element array gives
the number of its element, a multi-element array is not numeric, and an
object prints as [object Object], which is NaN (an array wrapping a
non-integer number may render differently from the engine, see
jvalRender). -/
def toNumber : JVal → JSNum
  | .num q => .fin q
  | .str s => jsNumOfString s
  | .bool true => .fin 1
  | .bool false => .fin 0
  | .null => .fin 0
  | .arr xs => jsNumOfString (jvalRender (.arr xs))
  | .obj fields => jsNumOfString (jvalRender (.obj fields))

/-- Final clamp applied to each score field: NaN and infinities become 0,
anything else is rounded and clamped into the closed range 0 to 100. -/
def clampScore : JSNum → Int
  | .fin q => max 0 (min 100 ⌊q + 1/2⌋)
  | _ => 0

/-- The five named score fields of the canonical result. -/
structure ScoreSet where
  overall : Int
  atsCompatibility : Int
  keywordOptimization : Int
  formatting : Int
  impact : Int
  deriving Repr, DecidableEq

/-- The canonical analysis result produced by the normalizer. -/
structure AnalysisResult where
  scores : ScoreSet
  summary : String
  strengths : List String
  improvements : List String
  criticalIssues : List String
  suggestions : List String
  deriving Repr, DecidableEq

/-- Overall score before rounding, from the mapping code: a numeric flat
score is used directly, a string flat score goes through Number() with a
zero fallback, anything else is 0. -/
def overallRawNum (raw : JVal) : JSNum :=
  match getProp raw "score" with
  | some (.num q) => .fin q
  | some (.str s) => jsOr0 (jsNumOfString s)
  | _ => .fin 0

/-- The breakdown binding, breakdown logical-or empty object: the
breakdown value when truthy, else an empty object. -/
def breakdownOf (raw : JVal) : JVal :=
  match getProp raw "breakdown" with
  | some v => if jvalTruthy v then v else .obj []
  | none => .obj []

/-- A breakdown field read as `Number(breakdown.k ?? 0) || 0`. -/
def bdField (raw : JVal) (k : String) : JSNum :=
  jsOr0 (toNumber (nullishOr (getProp (breakdownOf raw) k) (.num 0)))

/-- The keywords field, which also accepts the key keywordsScore:
`Number(breakdown.keywords ?? breakdown.keywordsScore ?? 0) || 0`. -/
def keywordsNum (raw : JVal) : JSNum :=
  jsOr0 (toNumber (nullishOr (getProp (breakdownOf raw) "keywords")
    (nullishOr (getProp (breakdownOf raw) "keywordsScore") (.num 0))))

/-- The derived pair scores, written in the source as
`Math.round((a + b) / (a || b ? 2 : 1)) || 0`: when either operand is
truthy the divisor is 2, otherwise 1. -/
def pairScore (a b : JSNum) : JSNum :=
  jsOr0 (jsRound (jsDivNat (jsAdd a b) (if jsTruthy a || jsTruthy b then 2 else 1)))

/-- String elements of a decoded array, keeping only the strings. -/
def stringElems (xs : List JVal) : List String :=
  xs.filterMap (fun v => match v with | .str s => some s | _ => none)

/-- String elements under one improvements category key. -/
def catStrings (fields : List (String × JVal)) (k : String) : List String :=
  match lookupField fields k with
  | some (.arr xs) => stringElems xs
  | _ => []

/-- The flat improvements list: a flat string array is taken as is; a
categorized object contributes, in the fixed key order critical,
important, suggested, recommended, the string elements of any array found
there (the source loop over that key list is unrolled here); anything
else gives the empty list. -/
def improvementsFlatOf (raw : JVal) : List String :=
  match getProp raw "improvements" with
  | some (.arr xs) => stringElems xs
  | some (.obj fields) =>
    catStrings fields "critical" ++ catStrings fields "important" ++
      catStrings fields "suggested" ++ catStrings fields "recommended"
  | _ => []

/-- The criticalIssues list, `raw.improvements?.critical` when that is an
array, filtered to strings. -/
def criticalIssuesOf (raw : JVal) : List String :=
  match (getProp raw "improvements").bind (fun v => getProp v "critical") with
  | some (.arr xs) => stringElems xs
  | _ => []

/-- The suggestions list, `raw.improvements?.suggested` when that is an
array, filtered to strings. -/
def suggestionsOf (raw : JVal) : List String :=
  match (getProp raw "improvements").bind (fun v => getProp v "suggested") with
  | some (.arr xs) => stringElems xs
  | _ => []

/-- The strengths list when present as an array, filtered to strings. -/
def strengthsOf (raw : JVal) : List String :=
  match getProp raw "strengths" with
  | some (.arr xs) => stringElems xs
  | _ => []

/-- The summary text: `(raw.summary && String(raw.summary)) ||
(raw.analysisSummary && String(raw.analysisSummary)) || ""`. -/
def summaryOf (raw : JVal) : String :=
  let pick : Option JVal → Option String := fun o =>
    match o with
    | some v =>
      if jvalTruthy v then
        (fun r => if r = "" then none else some r) (jvalRender v)
      else none
    | none => none
  match pick (getProp raw "summary") with
  | some s => s
  | none => (pick (getProp raw "analysisSummary")).getD ""

/-- The mapping of a decoded payload into the canonical result, lines 90
to 157 of the current gemini service: the per-field computations followed
by the final clamp pass, fused here per field since the source loop
treats each key independently. -/
def mapPayload (raw : JVal) : AnalysisResult :=
  { scores :=
      { overall := clampScore (jsRound (overallRawNum raw)),
        atsCompatibility :=
          clampScore (pairScore (bdField raw "experience") (bdField raw "education")),
        keywordOptimization := clampScore (jsOr0 (jsRound (keywordsNum raw))),
        formatting := clampScore (jsOr0 (jsRound (bdField raw "formatting"))),
        impact :=
          clampScore (pairScore (bdField raw "skills") (bdField raw "experience")) },
    summary := summaryOf raw,
    strengths := strengthsOf raw,
    improvements := improvementsFlatOf raw,
    criticalIssues := criticalIssuesOf raw,
    suggestions := suggestionsOf raw }

/-- Index of the first occurrence of a character pattern list inside a
character list, scanning left to right. -/
def findSubstrIdxAux (needle : List Char) (i : Nat) : List Char → Option Nat
  | [] => if needle.isPrefixOf ([] : List Char) then some i else none
  | c :: rest =>
    if needle.isPrefixOf (c :: rest) then some i
    else findSubstrIdxAux needle (i + 1) rest

/-- Index of the first occurrence of a character, scanning from position
i, reported as an absolute index. -/
def charIdxFrom (target : Char) (i : Nat) : List Char → Option Nat
  | [] => none
  | c :: rest => if c == target then some i else charIdxFrom target (i + 1) rest

/-- The fenced-block search of the normalizer, the case-insensitive
pattern of three backticks, the word json, optional whitespace, a lazy
body capture, optional whitespace and three closing backticks. The match
starts at the first occurrence of the opening fence (compared in lower
case); the body runs to the first later occurrence of three backticks,
with surrounding whitespace outside the capture. Returns the whole match
and the capture. -/
def fencedMatch (s : String) : Option (String × String) :=
  let lower := s.data.map Char.toLower
  match findSubstrIdxAux ("```json".data) 0 lower with
  | none => none
  | some i =>
    let tail := s.data.drop (i + 7)
    match findSubstrIdxAux ("```".data) 0 tail with
    | none => none
    | some k =>
      let whole := (s.data.drop i).take (7 + k + 3)
      let capture := trimJs (tail.take k)
      some (String.mk whole, String.mk capture)

/-- The fallback brace search of the normalizer, the greedy pattern of an
opening brace, anything, a closing brace: the substring from the first
opening brace to the last closing brace, when the latter lies after the
former. -/
def braceMatch (s : String) : Option String :=
  match charIdxFrom '\x7b' 0 s.data with
  | none => none
  | some i =>
    match charIdxFrom '\x7d' 0 s.data.reverse with
    | none => none
    | some r =>
      let j := s.data.length - 1 - r
      if i < j then some (String.mk ((s.data.drop i).take (j - i + 1))) else none

/-- Candidate payload text located in the reply: the fenced block first
(its capture, or the whole match when the capture is empty, after
`jsonMatch[1] || jsonMatch[0]`), else the brace substring. -/
def locateCandidate (s : String) : Option String :=
  match fencedMatch s with
  | some (whole, capture) => some (if capture = "" then whole else capture)
  | none => braceMatch s

/-- JSON structural whitespace. -/
def skipWsL (cs : List Char) : List Char :=
  cs.dropWhile (fun c => c == ' ' || c == '\t' || c == '\n' || c == '\r')

/-- Body of a JSON string literal after the opening quote: characters and
escapes up to the closing quote. A \u escape outside the valid scalar
range degrades to the null character, an idealization of surrogate
handling. -/
def parseJStringAux : List Char → List Char → Option (String × List Char)
  | acc, '"' :: rest => some (String.mk acc.reverse, rest)
  | acc, '\\' :: 'u' :: h1 :: h2 :: h3 :: h4 :: rest =>
    if isHexDigit h1 && isHexDigit h2 && isHexDigit h3 && isHexDigit h4 then
      parseJStringAux
        (Char.ofNat (((hexVal h1 * 16 + hexVal h2) * 16 + hexVal h3) * 16 + hexVal h4) :: acc)
        rest
    else none
  | acc, '\\' :: c :: rest =>
    match c with
    | '"' => parseJStringAux ('"' :: acc) rest
    | '\\' => parseJStringAux ('\\' :: acc) rest
    | '/' => parseJStringAux ('/' :: acc) rest
    | 'b' => parseJStringAux ('\x08' :: acc) rest
    | 'f' => parseJStringAux ('\x0c' :: acc) rest
    | 'n' => parseJStringAux ('\n' :: acc) rest
    | 'r' => parseJStringAux ('\r' :: acc) rest
    | 't' => parseJStringAux ('\t' :: acc) rest
    | _ => none
  | acc, c :: rest => parseJStringAux (c :: acc) rest
  | _, [] => none

/-- A JSON number token: optional minus, an integer part without leading
zeros, optional fraction, optional exponent; returns the value and the
remaining input. -/
def parseJNumber (cs : List Char) : Option (ℚ × List Char) :=
  let signSplit : Bool × List Char :=
    match cs with
    | '-' :: rest => (true, rest)
    | _ => (false, cs)
  let neg := signSplit.1
  let cs1 := signSplit.2
  let ip := cs1.takeWhile Char.isDigit
  let rest1 := cs1.dropWhile Char.isDigit
  if ip = [] then none
  else if 1 < ip.length && ip.headD '0' == '0' then none
  else
    let base : ℚ := digitsVal ip
    let step2 : Option (ℚ × List Char) :=
      match rest1 with
      | '.' :: r =>
        let fp := r.takeWhile Char.isDigit
        if fp = [] then none
        else some (base + (digitsVal fp : ℚ) / (10 : ℚ) ^ fp.length,
          r.dropWhile Char.isDigit)
      | _ => some (base, rest1)
    match step2 with
    | none => none
    | some (m, rest2) =>
      let step3 : Option (ℚ × List Char) :=
        match rest2 with
        | e :: r =>
          if e == 'e' || e == 'E' then
            let esplit : Bool × List Char :=
              match r with
              | '+' :: rr => (false, rr)
              | '-' :: rr => (true, rr)
              | _ => (false, r)
            let ed := esplit.2.takeWhile Char.isDigit
            if ed = [] then none
            else if esplit.1 then
              some (m / (10 : ℚ) ^ digitsVal ed, esplit.2.dropWhile Char.isDigit)
            else
              some (m * (10 : ℚ) ^ digitsVal ed, esplit.2.dropWhile Char.isDigit)
          else some (m, rest2)
        | [] => some (m, rest2)
      match step3 with
      | none => none
      | some (v, rest3) => some (if neg then -v else v, rest3)

mutual

/-- One JSON value, by recursion on a fuel bound. -/
def parseVal : Nat → List Char → Option (JVal × List Char)
  | 0, _ => none
  | fuel + 1, cs =>
    match skipWsL cs with
    | 'n' :: 'u' :: 'l' :: 'l' :: rest => some (.null, rest)
    | 't' :: 'r' :: 'u' :: 'e' :: rest => some (.bool true, rest)
    | 'f' :: 'a' :: 'l' :: 's' :: 'e' :: rest => some (.bool false, rest)
    | '"' :: rest =>
      match parseJStringAux [] rest with
      | some (s, r) => some (.str s, r)
      | none => none
    | '[' :: rest =>
      (match skipWsL rest with
        | ']' :: r => some (.arr [], r)
        | cs2 => parseElems fuel cs2 [])
    | '\x7b' :: rest =>
      (match skipWsL rest with
        | '\x7d' :: r => some (.obj [], r)
        | cs2 => parseMembers fuel cs2 [])
    | cs2 =>
      match parseJNumber cs2 with
      | some (q, r) => some (.num q, r)
      | none => none

/-- Elements of a JSON array after the opening bracket. -/
def parseElems : Nat → List Char → List JVal → Option (JVal × List Char)
  | 0, _, _ => none
  | fuel + 1, cs, acc =>
    match parseVal fuel cs with
    | some (v, rest) =>
      (match skipWsL rest with
        | ',' :: r => parseElems fuel r (v :: acc)
        | ']' :: r => some (.arr (v :: acc).reverse, r)
        | _ => none)
    | none => none

/-- Members of a JSON object after the opening brace. -/
def parseMembers : Nat → List Char → List (String × JVal) → Option (JVal × List Char)
  | 0, _, _ => none
  | fuel + 1, cs, acc =>
    match skipWsL cs with
    | '"' :: rest =>
      (match parseJStringAux [] rest with
        | some (k, r1) =>
          (match skipWsL r1 with
            | ':' :: r2 =>
              (match parseVal fuel r2 with
                | some (v, r3) =>
                  (match skipWsL r3 with
                    | ',' :: r4 => parseMembers fuel r4 ((k, v) :: acc)
                    | '\x7d' :: r4 => some (.obj ((k, v) :: acc).reverse, r4)
                    | _ => none)
                | none => none)
            | _ => none)
        | none => none)
    | _ => none

end

/-- JSON.parse on the located candidate text: one value, surrounded only
by structural whitespace. -/
def jparse (s : String) : Option JVal :=
  match parseVal (2 * s.data.length + 2) s.data with
  | some (v, rest) => if skipWsL rest = [] then some v else none
  | none => none

/-- Failures of the normalization step: the first two carry the
untrusted text the code logs for diagnostics before throwing; the third
is the TypeError thrown by the mapping itself when the decoded payload
is null. -/
inductive NormError where
  | noPayload (raw : String)
  | malformed (payload : String)
  | typeErrorNull (payload : String)
  deriving Repr, DecidableEq

/-- The mapping step as it actually runs: straight-line code whose very
first property access, raw.score on line 91, throws a TypeError when
the decoded payload is null (the reply text null decodes to it), an
exception that escapes the mapping; on every other decoded value no
access can throw — each base is either raw itself past that first read,
a value guarded non-null by a logical-or, or behind an optional chain —
so the mapping completes with mapPayload. -/
def runMapping : JVal → Option AnalysisResult
  | .null => none
  | raw => some (mapPayload raw)

/-- The response normalizer of the current gemini service, lines 63 to
159: locate a candidate payload (fenced block, then brace substring; on
failure the raw reply is logged and a no-valid-JSON error thrown), decode
it (on failure the candidate is logged and a parse error thrown), then
run the mapping, which itself fails only on a null payload. -/
def normalizeReply (s : String) : Except NormError AnalysisResult :=
  match locateCandidate s with
  | none => .error (.noPayload s)
  | some c =>
    match jparse c with
    | none => .error (.malformed c)
    | some j =>
      match runMapping j with
      | some r => .ok r
      | none => .error (.typeErrorNull c)

/-- An uploaded file as the extractor sees it: the declared MIME type,
the text a text read yields, and the outcome of handing the bytes to the
PDF library (the text items of each page when parsing succeeds, nothing
when the library throws). -/
structure UploadedFile where
  mime : String
  textContent : String
  pdfPages : Option (List (List String))

/-- Failures of the extractor, one per distinct rejection message in the
source. -/
inductive ExtractError where
  | noReadableTextPdf
  | pdfParseFailed
  | wordNotSupported
  | noReadableTextFile
  | unsupportedType
  deriving Repr, DecidableEq

/-- Page text assembly: the text items of each page joined with single
spaces, each page followed by a newline, pages in order. -/
def pdfTextOf (pages : List (List String)) : String :=
  String.join (pages.map (fun items => String.intercalate " " items ++ "\n"))

/-- The extractor of the current gemini service, lines 186 to 264: plain
text is read directly; PDF is parsed and gated on more than 50 trimmed
characters; the two word-processor types are rejected outright; any
other type goes through the PDF path as a fallback with the same gate,
and only a fallback parse failure reports the unsupported-type error. -/
def extractTextFromFile (f : UploadedFile) : Except ExtractError String :=
  if f.mime = "text/plain" then .ok f.textContent
  else if f.mime = "application/pdf" then
    match f.pdfPages with
    | some pages =>
      let t := jsTrim (pdfTextOf pages)
      if 50 < jsLen t then .ok t else .error .noReadableTextPdf
    | none => .error .pdfParseFailed
  else if f.mime = "application/msword" ∨
      f.mime = "application/vnd.openxmlformats-officedocument.wordprocessingml.document" then
    .error .wordNotSupported
  else
    match f.pdfPages with
    | some pages =>
      let t := jsTrim (pdfTextOf pages)
      if 50 < jsLen t then .ok t else .error .noReadableTextFile
    | none => .error .unsupportedType

/-- User-facing message for each extraction failure, as rejected in the
source. -/
def extractErrorText : ExtractError → String
  | .noReadableTextPdf =>
    "Could not extract readable text from PDF. Please try converting your PDF to a text file or copy-paste the content."
  | .pdfParseFailed => "Failed to parse PDF. Try a different PDF or convert to text."
  | .wordNotSupported =>
    "Word documents are not supported yet. Please convert your resume to PDF or text format."
  | .noReadableTextFile =>
    "Could not extract readable text from file. Please provide a PDF or text file."
  | .unsupportedType => "Unsupported file type. Please use PDF or text files."

/-- User-facing message for a normalization failure: both parse failures
carry JSON in their message, so the service catch block maps either to
the same retry message; the TypeError message of the null-payload case
mentions neither JSON nor parse, so the catch block falls through to the
generic analyze failure. -/
def normErrorText : NormError → String
  | .noPayload _ => "Failed to parse analysis results from Gemini. Try again."
  | .malformed _ => "Failed to parse analysis results from Gemini. Try again."
  | .typeErrorNull _ => "Failed to analyze resume. Please try again."

/-- Outcomes of the external collaborators for one orchestrated analyze
call: the upload result (public URL and error as the storage service
returns them), the model reply or classified service error, and the
persistence error if any. -/
structure AnalyzeDeps where
  uploadUrl : Option String
  uploadErr : Option String
  geminiReply : Except String String
  saveErr : Option String

/-- The orchestrated analyze flow of the live App component: upload
(failing fast when the collaborator reports an error or a falsy URL),
extract, analyze the reply through the normalizer, then persist; a
persistence error is only logged (second component) and the result is
still delivered. -/
def runAnalyzeResume (deps : AnalyzeDeps) (f : UploadedFile) :
    Except String AnalysisResult × List String :=
  if deps.uploadErr.isSome || deps.uploadUrl.getD "" = "" then
    (.error "Failed to upload resume to storage", [])
  else
    match extractTextFromFile f with
    | .error e => (.error (extractErrorText e), [])
    | .ok _resumeText =>
      match deps.geminiReply with
      | .error msg => (.error msg, [])
      | .ok reply =>
        match normalizeReply reply with
        | .error pe => (.error (normErrorText pe), [])
        | .ok result =>
          match deps.saveErr with
          | some msg => (.ok result, ["Failed to save analysis results: " ++ msg])
          | none => (.ok result, [])

/-- The stored-record ATS derivation of the ResumeHistory component: when
either breakdown value is nonzero, the rounded average taken over 2 only
when both are nonzero (a single nonzero value is used alone); when both
are zero there is no derived value. -/
def historyDeriveAts (exp edu : ℚ) : Option Int :=
  if exp ≠ 0 ∨ edu ≠ 0 then
    some ⌊(exp + edu) / (if exp ≠ 0 ∧ edu ≠ 0 then (2 : ℚ) else 1) + 1/2⌋
  else none

theorem mapPayload_overall (raw : JVal) :
    (mapPayload raw).scores.overall = clampScore (jsRound (overallRawNum raw)) := rfl

theorem mapPayload_ats (raw : JVal) :
    (mapPayload raw).scores.atsCompatibility
      = clampScore (pairScore (bdField raw "experience") (bdField raw "education")) := rfl

theorem mapPayload_keyword (raw : JVal) :
    (mapPayload raw).scores.keywordOptimization
      = clampScore (jsOr0 (jsRound (keywordsNum raw))) := rfl

theorem mapPayload_formatting (raw : JVal) :
    (mapPayload raw).scores.formatting
      = clampScore (jsOr0 (jsRound (bdField raw "formatting"))) := rfl

theorem mapPayload_impact (raw : JVal) :
    (mapPayload raw).scores.impact
      = clampScore (pairScore (bdField raw "skills") (bdField raw "experience")) := rfl

theorem clampScore_nonneg (x : JSNum) : 0 ≤ clampScore x := by
  cases x with
  | fin q => exact le_max_left 0 _
  | nan => exact le_refl 0
  | pinf => exact le_refl 0
  | ninf => exact le_refl 0

theorem clampScore_le_hundred (x : JSNum) : clampScore x ≤ 100 := by
  cases x with
  | fin q => exact max_le (by norm_num) (min_le_left _ _)
  | nan => decide
  | pinf => decide
  | ninf => decide

theorem jsOr0_fin (q : ℚ) : jsOr0 (.fin q) = .fin q := by
  by_cases h : q = 0
  · subst h; decide
  · simp [jsOr0, jsTruthy, h]

theorem floor_half_int (n : ℤ) : ⌊(n : ℚ) + 1/2⌋ = n := by
  rw [Int.floor_int_add]
  have h : ⌊(1/2 : ℚ)⌋ = 0 := by
    rw [Int.floor_eq_zero_iff, Set.mem_Ico]
    norm_num
  rw [h, add_zero]

theorem clampRound (q : ℚ) : clampScore (jsRound (.fin q)) = max 0 (min 100 ⌊q + 1/2⌋) := by
  simp only [jsRound, clampScore]
  rw [floor_half_int]

theorem clampRoundOr0 (q : ℚ) :
    clampScore (jsOr0 (jsRound (.fin q))) = max 0 (min 100 ⌊q + 1/2⌋) := by
  rw [show jsRound (.fin q) = JSNum.fin ((⌊q + 1/2⌋ : ℤ) : ℚ) from rfl, jsOr0_fin]
  simp only [clampScore]
  rw [floor_half_int]

theorem pairScore_fin (a b : ℚ) (h : a ≠ 0 ∨ b ≠ 0) :
    clampScore (pairScore (.fin a) (.fin b))
      = max 0 (min 100 ⌊(a + b) / 2 + 1/2⌋) := by
  have ht : (jsTruthy (.fin a) || jsTruthy (.fin b)) = true := by
    rcases h with h | h <;> simp [jsTruthy, h]
  simp only [pairScore, jsAdd, ht, if_true, jsDivNat, Nat.cast_ofNat]
  exact clampRoundOr0 ((a + b) / 2)

theorem clampRound_zero : clampScore (jsRound (JSNum.fin 0)) = 0 := by
  rw [clampRound]
  have h : (⌊(0:ℚ) + 1/2⌋ : ℤ) = 0 := by norm_num
  rw [h]; omega

theorem clampOr0Round_zero : clampScore (jsOr0 (jsRound (JSNum.fin 0))) = 0 := by
  rw [clampRoundOr0]
  have h : (⌊(0:ℚ) + 1/2⌋ : ℤ) = 0 := by norm_num
  rw [h]; omega

theorem pairScore_zero : clampScore (pairScore (.fin 0) (.fin 0)) = 0 := by
  have e1 : jsAdd (.fin 0) (.fin 0) = .fin 0 := by simp [jsAdd]
  have e2 : (jsTruthy (JSNum.fin 0) || jsTruthy (JSNum.fin 0)) = false := by
    simp [jsTruthy]
  have e3 : jsDivNat (.fin 0) 1 = .fin 0 := by simp [jsDivNat]
  unfold pairScore
  rw [e1, e2]
  simp only [Bool.false_eq_true, if_false, e3]
  exact clampOr0Round_zero

/-- C1: for every decoded payload, all five score fields of the
normalized result are integers in the closed range 0 to 100; when both
the flat score and the breakdown are absent every field is 0; a flat
score that is a non-numeric string, or any value that is neither a
number nor a string, maps overall to 0; a numeric flat score yields
overall rounded to the nearest integer and clamped to the nearest
boundary. -/
theorem c1_scores_in_range (raw : JVal) :
    (0 ≤ (mapPayload raw).scores.overall ∧ (mapPayload raw).scores.overall ≤ 100) ∧
    (0 ≤ (mapPayload raw).scores.atsCompatibility ∧
      (mapPayload raw).scores.atsCompatibility ≤ 100) ∧
    (0 ≤ (mapPayload raw).scores.keywordOptimization ∧
      (mapPayload raw).scores.keywordOptimization ≤ 100) ∧
    (0 ≤ (mapPayload raw).scores.formatting ∧ (mapPayload raw).scores.formatting ≤ 100) ∧
    (0 ≤ (mapPayload raw).scores.impact ∧ (mapPayload raw).scores.impact ≤ 100) ∧
    (getProp raw "score" = none → getProp raw "breakdown" = none →
      (mapPayload raw).scores = ⟨0, 0, 0, 0, 0⟩) ∧
    (∀ s, getProp raw "score" = some (.str s) → jsNumOfString s = .nan →
      (mapPayload raw).scores.overall = 0) ∧
    (∀ v, getProp raw "score" = some v → (∀ q, v ≠ .num q) → (∀ s, v ≠ .str s) →
      (mapPayload raw).scores.overall = 0) ∧
    (∀ q, getProp raw "score" = some (.num q) →
      (mapPayload raw).scores.overall = max 0 (min 100 ⌊q + 1/2⌋)) := by
  refine ⟨⟨?_, ?_⟩, ⟨?_, ?_⟩, ⟨?_, ?_⟩, ⟨?_, ?_⟩, ⟨?_, ?_⟩, ?_, ?_, ?_, ?_⟩
  · rw [mapPayload_overall]; exact clampScore_nonneg _
  · rw [mapPayload_overall]; exact clampScore_le_hundred _
  · rw [mapPayload_ats]; exact clampScore_nonneg _
  · rw [mapPayload_ats]; exact clampScore_le_hundred _
  · rw [mapPayload_keyword]; exact clampScore_nonneg _
  · rw [mapPayload_keyword]; exact clampScore_le_hundred _
  · rw [mapPayload_formatting]; exact clampScore_nonneg _
  · rw [mapPayload_formatting]; exact clampScore_le_hundred _
  · rw [mapPayload_impact]; exact clampScore_nonneg _
  · rw [mapPayload_impact]; exact clampScore_le_hundred _
  · intro h1 h2
    have ho : overallRawNum raw = .fin 0 := by simp [overallRawNum, h1]
    have hb : breakdownOf raw = JVal.obj [] := by simp [breakdownOf, h2]
    have he : bdField raw "experience" = .fin 0 := by unfold bdField; rw [hb]; decide
    have hd : bdField raw "education" = .fin 0 := by unfold bdField; rw [hb]; decide
    have hs : bdField raw "skills" = .fin 0 := by unfold bdField; rw [hb]; decide
    have hf : bdField raw "formatting" = .fin 0 := by unfold bdField; rw [hb]; decide
    have hk : keywordsNum raw = .fin 0 := by unfold keywordsNum; rw [hb]; decide
    show (⟨clampScore (jsRound (overallRawNum raw)),
      clampScore (pairScore (bdField raw "experience") (bdField raw "education")),
      clampScore (jsOr0 (jsRound (keywordsNum raw))),
      clampScore (jsOr0 (jsRound (bdField raw "formatting"))),
      clampScore (pairScore (bdField raw "skills") (bdField raw "experience"))⟩ : ScoreSet)
      = ⟨0, 0, 0, 0, 0⟩
    rw [ho, he, hd, hs, hf, hk, clampRound_zero, pairScore_zero, clampOr0Round_zero]
  · intro s h1 h2
    rw [mapPayload_overall]
    have ho : overallRawNum raw = jsOr0 (jsNumOfString s) := by simp [overallRawNum, h1]
    rw [ho, h2, show jsOr0 JSNum.nan = JSNum.fin 0 from rfl]
    exact clampRound_zero
  · intro v h1 hnq hns
    rw [mapPayload_overall]
    cases v with
    | num q => exact absurd rfl (hnq q)
    | str s => exact absurd rfl (hns s)
    | null =>
      have ho : overallRawNum raw = .fin 0 := by simp [overallRawNum, h1]
      rw [ho]; exact clampRound_zero
    | bool b =>
      have ho : overallRawNum raw = .fin 0 := by simp [overallRawNum, h1]
      rw [ho]; exact clampRound_zero
    | arr xs =>
      have ho : overallRawNum raw = .fin 0 := by simp [overallRawNum, h1]
      rw [ho]; exact clampRound_zero
    | obj fs =>
      have ho : overallRawNum raw = .fin 0 := by simp [overallRawNum, h1]
      rw [ho]; exact clampRound_zero
  · intro q h1
    rw [mapPayload_overall]
    have ho : overallRawNum raw = .fin q := by simp [overallRawNum, h1]
    rw [ho]
    exact clampRound q

/-- Witness for C1 at concrete inputs: a score of 150 clamps to 100, the
string score n/a maps to 0, a null score maps to 0, and the empty
payload yields all five scores 0. -/
theorem c1_scores_in_range_witness :
    (mapPayload (JVal.obj [("score", JVal.num 150)])).scores.overall = 100 ∧
    (mapPayload (JVal.obj [("score", JVal.str "n/a")])).scores.overall = 0 ∧
    (mapPayload (JVal.obj [("score", JVal.null)])).scores.overall = 0 ∧
    (mapPayload (JVal.obj [])).scores = ⟨0, 0, 0, 0, 0⟩ := by
  refine ⟨?_, ?_, ?_, ?_⟩
  · have h := (c1_scores_in_range (JVal.obj [("score", JVal.num 150)])).2.2.2.2.2.2.2.2 150 rfl
    have hf : (⌊(150:ℚ) + 1/2⌋ : ℤ) = 150 := by norm_num
    rw [h, hf]; omega
  · exact (c1_scores_in_range (JVal.obj [("score", JVal.str "n/a")])).2.2.2.2.2.2.1
      "n/a" rfl (by decide)
  · exact (c1_scores_in_range (JVal.obj [("score", JVal.null)])).2.2.2.2.2.2.2.1
      JVal.null rfl (fun q h => nomatch h) (fun s h => nomatch h)
  · exact (c1_scores_in_range (JVal.obj [])).2.2.2.2.2.1 rfl rfl

theorem charIdxFrom_none (t : Char) :
    ∀ (l : List Char), (∀ c ∈ l, c ≠ t) → ∀ i, charIdxFrom t i l = none := by
  intro l
  induction l with
  | nil => intro _ _; rfl
  | cons c rest ih =>
    intro h i
    have hc : (c == t) = false := by
      simpa using h c (List.mem_cons_self c rest)
    simp only [charIdxFrom, hc, Bool.false_eq_true, if_false]
    exact ih (fun x hx => h x (List.mem_cons_of_mem c hx)) (i + 1)

/-- Counterexample to C4 as stated: the reply with a fenced null payload
is located and decodes (to null), yet normalization fails — the first
property read of the mapping throws on the null base, so the mapping is
not total after steps 1 and 2 succeed, precisely in the claim's own
score-absent case. -/
theorem c4_null_payload_counterexample :
    locateCandidate "```json null ```" = some "null" ∧
    jparse "null" = some JVal.null ∧
    normalizeReply "```json null ```" = .error (.typeErrorNull "null") := by
  refine ⟨rfl, rfl, rfl⟩

/-- C4 amended: once a candidate payload is located and decodes, the
mapping fails exactly when the decoded value is null (a TypeError at the
first property read, surfaced as the generic analyze error); for every
other decoded value — objects, arrays, numbers, strings and booleans —
normalization succeeds with the mapped result, in particular for an
object payload whose score field is absent or zero. -/
theorem c4_mapping_total_unless_null (s c : String) (j : JVal)
    (hloc : locateCandidate s = some c) (hdec : jparse c = some j) :
    (j ≠ .null → normalizeReply s = .ok (mapPayload j)) ∧
    (j = .null → normalizeReply s = .error (.typeErrorNull c)) := by
  constructor
  · intro hnn
    have hr : runMapping j = some (mapPayload j) := by
      cases j with
      | null => exact absurd rfl hnn
      | bool b => rfl
      | num q => rfl
      | str s2 => rfl
      | arr xs => rfl
      | obj fs => rfl
    simp [normalizeReply, hloc, hdec, hr]
  · intro hn
    subst hn
    simp [normalizeReply, hloc, hdec, runMapping]

/-- Witness for the amended C4: a payload with score zero normalizes
successfully, and the fenced null reply fails with the TypeError case. -/
theorem c4_mapping_total_unless_null_witness :
    normalizeReply "\x7b\"score\":0\x7d"
      = .ok (mapPayload (JVal.obj [("score", JVal.num 0)])) ∧
    normalizeReply "```json null ```" = .error (.typeErrorNull "null") := by
  constructor
  · exact (c4_mapping_total_unless_null "\x7b\"score\":0\x7d" "\x7b\"score\":0\x7d"
      (JVal.obj [("score", JVal.num 0)]) rfl rfl).1 (fun h => nomatch h)
  · exact (c4_mapping_total_unless_null "```json null ```" "null" JVal.null rfl rfl).2 rfl

/-- C5: the normalizer prefers the fenced block and falls back to the
substring from the first opening to the last closing brace; when neither
matcher finds a payload, normalization fails with the no-payload parse
error carrying the raw reply text for diagnostics — in particular for a
reply containing no brace at all and no fenced block. -/
theorem c5_locate_order_and_error (s : String) :
    (∀ w cap, fencedMatch s = some (w, cap) →
      locateCandidate s = some (if cap = "" then w else cap)) ∧
    (fencedMatch s = none → locateCandidate s = braceMatch s) ∧
    (locateCandidate s = none → normalizeReply s = .error (.noPayload s)) ∧
    ((∀ c ∈ s.data, c ≠ '\x7b' ∧ c ≠ '\x7d') → fencedMatch s = none →
      normalizeReply s = .error (.noPayload s)) := by
  refine ⟨?_, ?_, ?_, ?_⟩
  · intro w cap h
    unfold locateCandidate
    rw [h]
  · intro h
    unfold locateCandidate
    rw [h]
  · intro h
    unfold normalizeReply
    rw [h]
  · intro hnb hf
    have hb : braceMatch s = none := by
      unfold braceMatch
      rw [charIdxFrom_none '\x7b' s.data (fun c hc => (hnb c hc).1) 0]
    have hl : locateCandidate s = none := by
      unfold locateCandidate
      rw [hf, hb]
    unfold normalizeReply
    rw [hl]

/-- Witness for C5: a braceless, fenceless reply fails with the
no-payload error carrying the reply; a fenced reply is located through
the fence with its capture; a fence-free reply with braces is located
through the brace fallback. -/
theorem c5_locate_order_and_error_witness :
    normalizeReply "Service unavailable, please retry."
      = .error (.noPayload "Service unavailable, please retry.") ∧
    locateCandidate "```json x``` tail" = some "x" ∧
    locateCandidate "no fence \x7b\"a\":1\x7d here" = some "\x7b\"a\":1\x7d" := by
  refine ⟨?_, ?_, ?_⟩
  · exact (c5_locate_order_and_error "Service unavailable, please retry.").2.2.2
      (by decide) rfl
  · have h := (c5_locate_order_and_error "```json x``` tail").1 "```json x```" "x" rfl
    simpa using h
  · have h := (c5_locate_order_and_error "no fence \x7b\"a\":1\x7d here").2.1 rfl
    exact h.trans rfl

/-- C10: both categorized lists of the result are drawn from the same
improvements object as the flat list — every critical issue and every
suggestion also appears in the flat improvements list; when the raw
improvements field is an object, criticalIssues and suggestions are
exactly the string elements under the critical and suggested keys, and
the flat list is the concatenation over the four category keys; when the
raw improvements field is a flat array or absent, both lists are empty. -/
theorem c10_issue_lists_from_categorized (raw : JVal) :
    (∀ s, s ∈ (mapPayload raw).criticalIssues → s ∈ (mapPayload raw).improvements) ∧
    (∀ s, s ∈ (mapPayload raw).suggestions → s ∈ (mapPayload raw).improvements) ∧
    (∀ fields, getProp raw "improvements" = some (.obj fields) →
      (mapPayload raw).criticalIssues = catStrings fields "critical" ∧
      (mapPayload raw).suggestions = catStrings fields "suggested" ∧
      (mapPayload raw).improvements
        = catStrings fields "critical" ++ catStrings fields "important" ++
          catStrings fields "suggested" ++ catStrings fields "recommended") ∧
    (∀ xs, getProp raw "improvements" = some (.arr xs) →
      (mapPayload raw).criticalIssues = [] ∧ (mapPayload raw).suggestions = []) ∧
    (getProp raw "improvements" = none →
      (mapPayload raw).criticalIssues = [] ∧ (mapPayload raw).suggestions = []) := by
  have hc : (mapPayload raw).criticalIssues = criticalIssuesOf raw := rfl
  have hs : (mapPayload raw).suggestions = suggestionsOf raw := rfl
  have hi : (mapPayload raw).improvements = improvementsFlatOf raw := rfl
  rw [hc, hs, hi]
  refine ⟨?_, ?_, ?_, ?_, ?_⟩
  · intro s hmem
    unfold criticalIssuesOf at hmem
    unfold improvementsFlatOf
    cases himp : getProp raw "improvements" with
    | none =>
      rw [himp] at hmem
      exact absurd hmem (List.not_mem_nil s)
    | some v =>
      rw [himp] at hmem
      cases v with
      | obj fields =>
        change s ∈ catStrings fields "critical" at hmem
        exact List.mem_append_left _ (List.mem_append_left _
          (List.mem_append_left _ hmem))
      | null => exact absurd hmem (List.not_mem_nil s)
      | bool b => exact absurd hmem (List.not_mem_nil s)
      | num q => exact absurd hmem (List.not_mem_nil s)
      | str t => exact absurd hmem (List.not_mem_nil s)
      | arr xs => exact absurd hmem (List.not_mem_nil s)
  · intro s hmem
    unfold suggestionsOf at hmem
    unfold improvementsFlatOf
    cases himp : getProp raw "improvements" with
    | none =>
      rw [himp] at hmem
      exact absurd hmem (List.not_mem_nil s)
    | some v =>
      rw [himp] at hmem
      cases v with
      | obj fields =>
        change s ∈ catStrings fields "suggested" at hmem
        exact List.mem_append_left _ (List.mem_append_right _ hmem)
      | null => exact absurd hmem (List.not_mem_nil s)
      | bool b => exact absurd hmem (List.not_mem_nil s)
      | num q => exact absurd hmem (List.not_mem_nil s)
      | str t => exact absurd hmem (List.not_mem_nil s)
      | arr xs => exact absurd hmem (List.not_mem_nil s)
  · intro fields h
    unfold criticalIssuesOf suggestionsOf improvementsFlatOf
    rw [h]
    exact ⟨rfl, rfl, rfl⟩
  · intro xs h
    unfold criticalIssuesOf suggestionsOf
    rw [h]
    exact ⟨rfl, rfl⟩
  · intro h
    unfold criticalIssuesOf suggestionsOf
    rw [h]
    exact ⟨rfl, rfl⟩

/-- Concrete categorized payload used by the C10 witness. -/
def categorizedPayload : JVal :=
  .obj [("improvements", .obj
    [("critical", .arr [.str "c1", .num 3]),
     ("important", .arr [.str "i1"]),
     ("suggested", .arr [.str "s1"])])]

/-- Witness for C10 on a categorized payload: the critical issue and the
suggestion both appear in the flat list, and the three lists take their
expected values. -/
theorem c10_issue_lists_from_categorized_witness :
    "c1" ∈ (mapPayload categorizedPayload).improvements ∧
    "s1" ∈ (mapPayload categorizedPayload).improvements ∧
    (mapPayload categorizedPayload).criticalIssues = ["c1"] ∧
    (mapPayload categorizedPayload).suggestions = ["s1"] := by
  refine ⟨?_, ?_, ?_, ?_⟩
  · exact (c10_issue_lists_from_categorized categorizedPayload).1 "c1" (by decide)
  · exact (c10_issue_lists_from_categorized categorizedPayload).2.1 "s1" (by decide)
  · exact ((c10_issue_lists_from_categorized categorizedPayload).2.2.1 _ rfl).1.trans
      (by decide)
  · exact ((c10_issue_lists_from_categorized categorizedPayload).2.2.1 _ rfl).2.1.trans
      (by decide)

theorem extract_pdf_some (f : UploadedFile) (pages : List (List String))
    (hm : f.mime = "application/pdf") (hp : f.pdfPages = some pages) :
    extractTextFromFile f =
      (if 50 < jsLen (jsTrim (pdfTextOf pages)) then .ok (jsTrim (pdfTextOf pages))
        else .error .noReadableTextPdf) := by
  unfold extractTextFromFile
  rw [hm, if_neg (by decide), if_pos rfl, hp]

theorem extract_other_some (f : UploadedFile) (pages : List (List String))
    (h1 : f.mime ≠ "text/plain") (h2 : f.mime ≠ "application/pdf")
    (h3 : f.mime ≠ "application/msword")
    (h4 : f.mime ≠ "application/vnd.openxmlformats-officedocument.wordprocessingml.document")
    (hp : f.pdfPages = some pages) :
    extractTextFromFile f =
      (if 50 < jsLen (jsTrim (pdfTextOf pages)) then .ok (jsTrim (pdfTextOf pages))
        else .error .noReadableTextFile) := by
  unfold extractTextFromFile
  rw [if_neg h1, if_neg h2, if_neg (not_or.mpr ⟨h3, h4⟩), hp]

theorem extract_other_none (f : UploadedFile)
    (h1 : f.mime ≠ "text/plain") (h2 : f.mime ≠ "application/pdf")
    (h3 : f.mime ≠ "application/msword")
    (h4 : f.mime ≠ "application/vnd.openxmlformats-officedocument.wordprocessingml.document")
    (hp : f.pdfPages = none) :
    extractTextFromFile f = .error .unsupportedType := by
  unfold extractTextFromFile
  rw [if_neg h1, if_neg h2, if_neg (not_or.mpr ⟨h3, h4⟩), hp]

/-- C6 amended: for a PDF the library parses, extraction succeeds exactly
when the trimmed page text strictly exceeds 50 characters (a trimmed
length of exactly 50 is rejected); a successful extraction always returns
the trimmed text, never a string at or below the threshold; at or below
the threshold the no-readable-text error is reported. -/
theorem c6_pdf_gate_strict (f : UploadedFile) (pages : List (List String))
    (hm : f.mime = "application/pdf") (hp : f.pdfPages = some pages) :
    ((∃ t, extractTextFromFile f = .ok t) ↔ 50 < jsLen (jsTrim (pdfTextOf pages))) ∧
    (∀ t, extractTextFromFile f = .ok t →
      t = jsTrim (pdfTextOf pages) ∧ 50 < jsLen t) ∧
    (jsLen (jsTrim (pdfTextOf pages)) ≤ 50 →
      extractTextFromFile f = .error .noReadableTextPdf) := by
  have he := extract_pdf_some f pages hm hp
  by_cases hg : 50 < jsLen (jsTrim (pdfTextOf pages))
  · rw [if_pos hg] at he
    refine ⟨⟨fun _ => hg, fun _ => ⟨_, he⟩⟩, ?_, ?_⟩
    · intro t ht
      rw [he] at ht
      have hts := Except.ok.inj ht
      exact ⟨hts.symm, hts ▸ hg⟩
    · intro hle
      exact absurd hg (not_lt.mpr hle)
  · rw [if_neg hg] at he
    refine ⟨⟨?_, fun h => absurd h hg⟩, ?_, fun _ => he⟩
    · rintro ⟨t, ht⟩
      rw [he] at ht
      simp at ht
    · intro t ht
      rw [he] at ht
      simp at ht

/-- Page list whose assembled text trims to exactly 50 characters. -/
def pagesAtThreshold : List (List String) := [[String.mk (List.replicate 50 'a')]]

/-- PDF file sitting exactly at the 50-character threshold. -/
def pdfAtThreshold : UploadedFile := ⟨"application/pdf", "", some pagesAtThreshold⟩

/-- Counterexample to C6 as stated: a PDF whose trimmed text has exactly
50 characters does not have fewer-than-threshold characters, yet
extraction fails — the gate demands strictly more than 50 characters. -/
theorem c6_threshold_counterexample :
    extractTextFromFile pdfAtThreshold = .error .noReadableTextPdf ∧
    ¬ jsLen (jsTrim (pdfTextOf pagesAtThreshold)) < 50 := by
  constructor
  · rfl
  · decide

/-- Witness for the amended C6 at both sides of the boundary: 51 trimmed
characters succeed with the trimmed text, 50 trimmed characters fail. -/
theorem c6_pdf_gate_strict_witness :
    extractTextFromFile ⟨"application/pdf", "", some [[String.mk (List.replicate 51 'a')]]⟩
      = .ok (jsTrim (pdfTextOf [[String.mk (List.replicate 51 'a')]])) ∧
    extractTextFromFile pdfAtThreshold = .error .noReadableTextPdf := by
  constructor
  · have h := (c6_pdf_gate_strict
      ⟨"application/pdf", "", some [[String.mk (List.replicate 51 'a')]]⟩
      [[String.mk (List.replicate 51 'a')]] rfl rfl).1.mpr (by decide)
    obtain ⟨t, ht⟩ := h
    have h2 := (c6_pdf_gate_strict
      ⟨"application/pdf", "", some [[String.mk (List.replicate 51 'a')]]⟩
      [[String.mk (List.replicate 51 'a')]] rfl rfl).2.1 t ht
    rw [← h2.1]
    exact ht
  · exact (c6_pdf_gate_strict pdfAtThreshold pagesAtThreshold rfl rfl).2.2 (by decide)

/-- C7: for a file whose declared MIME type is none of the four known
ones, the extractor attempts the PDF path as a fallback with the same
strict 50-character gate, and the unsupported-file-type error is reported
only when that fallback parse fails. -/
theorem c7_unknown_mime_fallback (f : UploadedFile)
    (h1 : f.mime ≠ "text/plain") (h2 : f.mime ≠ "application/pdf")
    (h3 : f.mime ≠ "application/msword")
    (h4 : f.mime ≠ "application/vnd.openxmlformats-officedocument.wordprocessingml.document") :
    (∀ pages, f.pdfPages = some pages →
      (50 < jsLen (jsTrim (pdfTextOf pages)) →
        extractTextFromFile f = .ok (jsTrim (pdfTextOf pages))) ∧
      (¬ 50 < jsLen (jsTrim (pdfTextOf pages)) →
        extractTextFromFile f = .error .noReadableTextFile)) ∧
    (extractTextFromFile f = .error .unsupportedType → f.pdfPages = none) := by
  constructor
  · intro pages hp
    have he := extract_other_some f pages h1 h2 h3 h4 hp
    exact ⟨fun hg => by rw [he, if_pos hg], fun hg => by rw [he, if_neg hg]⟩
  · intro hu
    cases hp : f.pdfPages with
    | none => rfl
    | some pages =>
      have he := extract_other_some f pages h1 h2 h3 h4 hp
      rw [he] at hu
      by_cases hg : 50 < jsLen (jsTrim (pdfTextOf pages))
      · rw [if_pos hg] at hu
        simp at hu
      · rw [if_neg hg] at hu
        simp at hu

/-- Witness for C7: an unknown MIME type whose bytes do parse as a PDF
with enough text succeeds through the fallback; an unknown MIME type
whose bytes the PDF library rejects reports the unsupported-type error,
and the theorem confirms that error implies the fallback parse failed. -/
theorem c7_unknown_mime_fallback_witness :
    extractTextFromFile
        ⟨"application/octet-stream", "", some [[String.mk (List.replicate 60 'b')]]⟩
      = .ok (jsTrim (pdfTextOf [[String.mk (List.replicate 60 'b')]])) ∧
    (⟨"image/png", "", none⟩ : UploadedFile).pdfPages = none := by
  constructor
  · exact ((c7_unknown_mime_fallback
      ⟨"application/octet-stream", "", some [[String.mk (List.replicate 60 'b')]]⟩
      (by decide) (by decide) (by decide) (by decide)).1
      [[String.mk (List.replicate 60 'b')]] rfl).1 (by decide)
  · exact (c7_unknown_mime_fallback ⟨"image/png", "", none⟩
      (by decide) (by decide) (by decide) (by decide)).2 rfl

/-- C8: a file declared as either word-processor MIME type is rejected
with the fixed not-supported error, whatever its text or byte content,
and no parse is attempted. -/
theorem c8_word_mime_rejected (f : UploadedFile)
    (h : f.mime = "application/msword" ∨
      f.mime = "application/vnd.openxmlformats-officedocument.wordprocessingml.document") :
    extractTextFromFile f = .error .wordNotSupported := by
  rcases h with h | h
  · unfold extractTextFromFile
    rw [h, if_neg (by decide), if_neg (by decide), if_pos (Or.inl rfl)]
  · unfold extractTextFromFile
    rw [h, if_neg (by decide), if_neg (by decide), if_pos (Or.inr rfl)]

/-- Witness for C8: a legacy word document full of parseable PDF content
is still rejected outright, and likewise the Open XML type. -/
theorem c8_word_mime_rejected_witness :
    extractTextFromFile
        ⟨"application/msword", "plenty of text", some [[String.mk (List.replicate 99 'c')]]⟩
      = .error .wordNotSupported ∧
    extractTextFromFile
        ⟨"application/vnd.openxmlformats-officedocument.wordprocessingml.document", "", none⟩
      = .error .wordNotSupported := by
  constructor
  · exact c8_word_mime_rejected _ (Or.inl rfl)
  · exact c8_word_mime_rejected _ (Or.inr rfl)

/-- C9: when upload, extraction, model reply and normalization all
succeed and only the persistence step reports an error, the orchestrated
flow still delivers the normalized result to the caller, and the
persistence error is merely logged. -/
theorem c9_persistence_error_swallowed (deps : AnalyzeDeps) (f : UploadedFile)
    (url reply msg t : String) (r : AnalysisResult)
    (hu : deps.uploadErr = none) (hurl : deps.uploadUrl = some url) (hne : url ≠ "")
    (hex : extractTextFromFile f = .ok t)
    (hg : deps.geminiReply = .ok reply)
    (hn : normalizeReply reply = .ok r)
    (hs : deps.saveErr = some msg) :
    runAnalyzeResume deps f = (.ok r, ["Failed to save analysis results: " ++ msg]) := by
  unfold runAnalyzeResume
  rw [hu, hurl]
  rw [if_neg (by simp [hne])]
  rw [hex, hg]
  simp [hn, hs]

/-- Witness for C9: a concrete run in which the database insert fails but
the caller still receives the normalized result, with the failure
logged. -/
theorem c9_persistence_error_swallowed_witness :
    runAnalyzeResume
        ⟨some "https://store/res.pdf", none, .ok "\x7b\"score\":85\x7d", some "insert failed"⟩
        ⟨"text/plain", "resume text", none⟩
      = (.ok (mapPayload (JVal.obj [("score", JVal.num 85)])),
        ["Failed to save analysis results: insert failed"]) := by
  exact c9_persistence_error_swallowed
    ⟨some "https://store/res.pdf", none, .ok "\x7b\"score\":85\x7d", some "insert failed"⟩
    ⟨"text/plain", "resume text", none⟩
    "https://store/res.pdf" "\x7b\"score\":85\x7d" "insert failed" "resume text"
    (mapPayload (JVal.obj [("score", JVal.num 85)]))
    rfl rfl (by decide) rfl rfl rfl rfl

/-- Modelled from the claim wording of C2, for comparison with the code:
when both contributing breakdown fields are nonzero the result is the
rounded average of the two; when exactly one is nonzero that value is
used alone rather than averaged with zero; when both are zero or absent
the result is 0. -/
def claimPairRule (a b : ℚ) : Int :=
  if a ≠ 0 ∧ b ≠ 0 then ⌊(a + b) / 2 + 1/2⌋
  else if a ≠ 0 then ⌊a + 1/2⌋
  else if b ≠ 0 then ⌊b + 1/2⌋
  else 0

/-- Flat payload whose breakdown has experience 80 and no education. -/
def singleSidedPayload : JVal :=
  .obj [("breakdown", .obj [("experience", .num 80)])]

/-- Counterexample to C2 as stated: with experience 80 present and
nonzero and education absent, the claimed single-nonzero rule yields 80,
but the normalizer divides by 2 whenever either value is nonzero and
returns 40, for atsCompatibility and likewise for impact (skills absent,
experience 80). -/
theorem c2_single_nonzero_counterexample :
    bdField singleSidedPayload "experience" = .fin 80 ∧
    bdField singleSidedPayload "education" = .fin 0 ∧
    claimPairRule 80 0 = 80 ∧
    (mapPayload singleSidedPayload).scores.atsCompatibility = 40 ∧
    (mapPayload singleSidedPayload).scores.impact = 40 := by
  have he : bdField singleSidedPayload "experience" = .fin 80 := by decide
  have hd : bdField singleSidedPayload "education" = .fin 0 := by decide
  have hk : bdField singleSidedPayload "skills" = .fin 0 := by decide
  refine ⟨he, hd, ?_, ?_, ?_⟩
  · unfold claimPairRule
    rw [if_neg (by norm_num), if_pos (by norm_num)]
    norm_num
  · rw [mapPayload_ats, he, hd, pairScore_fin 80 0 (Or.inl (by norm_num))]
    have hf : (⌊((80:ℚ) + 0) / 2 + 1/2⌋ : ℤ) = 40 := by norm_num
    rw [hf]
    omega
  · rw [mapPayload_impact, hk, he, pairScore_fin 0 80 (Or.inr (by norm_num))]
    have hf : (⌊((0:ℚ) + 80) / 2 + 1/2⌋ : ℤ) = 40 := by norm_num
    rw [hf]
    omega

/-- C2 amended: the normalizer derives atsCompatibility from experience
and education, and impact from skills and experience, as the rounded,
clamped quantity (a + b) / 2 whenever either contributing value is
nonzero — so a single nonzero value is halved, not used alone — and 0
when both are zero; the claimed use-alone rule for a single nonzero
value is implemented only by the stored-record derivation of the
ResumeHistory component. -/
theorem c2_derived_pair_scores (raw : JVal) (e d k : ℚ)
    (he : bdField raw "experience" = .fin e)
    (hd : bdField raw "education" = .fin d)
    (hk : bdField raw "skills" = .fin k) :
    ((e ≠ 0 ∨ d ≠ 0) →
      (mapPayload raw).scores.atsCompatibility = max 0 (min 100 ⌊(e + d) / 2 + 1/2⌋)) ∧
    (e = 0 → d = 0 → (mapPayload raw).scores.atsCompatibility = 0) ∧
    ((k ≠ 0 ∨ e ≠ 0) →
      (mapPayload raw).scores.impact = max 0 (min 100 ⌊(k + e) / 2 + 1/2⌋)) ∧
    (k = 0 → e = 0 → (mapPayload raw).scores.impact = 0) ∧
    (∀ a : ℚ, a ≠ 0 → historyDeriveAts a 0 = some ⌊a + 1/2⌋) := by
  refine ⟨?_, ?_, ?_, ?_, ?_⟩
  · intro h
    rw [mapPayload_ats, he, hd]
    exact pairScore_fin e d h
  · intro h1 h2
    subst h1
    subst h2
    rw [mapPayload_ats, he, hd]
    exact pairScore_zero
  · intro h
    rw [mapPayload_impact, hk, he]
    exact pairScore_fin k e h
  · intro h1 h2
    subst h1
    subst h2
    rw [mapPayload_impact, hk, he]
    exact pairScore_zero
  · intro a ha
    unfold historyDeriveAts
    rw [if_pos (Or.inl ha), if_neg (fun hh => hh.2 rfl)]
    norm_num

/-- Flat payload with a full breakdown, used by the C2 witness. -/
def fullBreakdownPayload : JVal :=
  .obj [("breakdown", .obj
    [("experience", .num 85), ("education", .num 95), ("skills", .num 75)])]

/-- Witness for the amended C2: with experience 85, education 95 and
skills 75 the derived scores are 90 and 80, and the history derivation
keeps a lone nonzero value 80 whole. -/
theorem c2_derived_pair_scores_witness :
    (mapPayload fullBreakdownPayload).scores.atsCompatibility = 90 ∧
    (mapPayload fullBreakdownPayload).scores.impact = 80 ∧
    historyDeriveAts 80 0 = some 80 := by
  have h := c2_derived_pair_scores fullBreakdownPayload 85 95 75
    (by decide) (by decide) (by decide)
  refine ⟨?_, ?_, ?_⟩
  · have h1 := h.1 (Or.inl (by norm_num))
    have hf : (⌊((85:ℚ) + 95) / 2 + 1/2⌋ : ℤ) = 90 := by norm_num
    rw [h1, hf]
    omega
  · have h1 := h.2.2.1 (Or.inl (by norm_num))
    have hf : (⌊((75:ℚ) + 85) / 2 + 1/2⌋ : ℤ) = 80 := by norm_num
    rw [h1, hf]
    omega
  · have h1 := h.2.2.2.2 80 (by norm_num)
    have hf : (⌊(80:ℚ) + 1/2⌋ : ℤ) = 80 := by norm_num
    rw [h1, hf]

/-- Modelled from the claim wording of C3, for comparison with the code:
the overall preference chain — a nested scores.overall when present, else
the flat score (numeric, or numeric string), else 0, each numeric value
rounded and clamped. -/
def claimOverallChain (raw : JVal) : Int :=
  match (getProp raw "scores").bind (fun v => getProp v "overall") with
  | some (.num q) => max 0 (min 100 ⌊q + 1/2⌋)
  | _ =>
    match getProp raw "score" with
    | some (.num q) => max 0 (min 100 ⌊q + 1/2⌋)
    | some (.str s) =>
      match jsNumOfString s with
      | .fin q => max 0 (min 100 ⌊q + 1/2⌋)
      | _ => 0
    | _ => 0

/-- Payload carrying only a nested scores.overall of 90. -/
def nestedOverallPayload : JVal :=
  .obj [("scores", .obj [("overall", .num 90)])]

/-- Counterexample to C3 as stated: on a payload whose only score is a
nested scores.overall of 90, the claimed preference chain yields 90, but
the normalizer never consults the nested record and returns 0. -/
theorem c3_nested_overall_counterexample :
    claimOverallChain nestedOverallPayload = 90 ∧
    (mapPayload nestedOverallPayload).scores.overall = 0 := by
  constructor
  · show max 0 (min 100 ⌊(90:ℚ) + 1/2⌋) = 90
    have hf : (⌊(90:ℚ) + 1/2⌋ : ℤ) = 90 := by norm_num
    rw [hf]
    omega
  · rw [mapPayload_overall]
    have h : overallRawNum nestedOverallPayload = .fin 0 := by decide
    rw [h]
    exact clampRound_zero

/-- C3 amended: the normalizer reads only the flat score field — two
payloads agreeing on the flat score get the same overall, whatever their
nested scores record holds; a numeric flat score is rounded and clamped,
a numeric-string flat score goes through Number() and is then rounded
and clamped, and an absent flat score yields 0. -/
theorem c3_overall_flat_only (raw : JVal) :
    (∀ raw2 : JVal, getProp raw "score" = getProp raw2 "score" →
      (mapPayload raw).scores.overall = (mapPayload raw2).scores.overall) ∧
    (∀ q, getProp raw "score" = some (.num q) →
      (mapPayload raw).scores.overall = max 0 (min 100 ⌊q + 1/2⌋)) ∧
    (∀ s q, getProp raw "score" = some (.str s) → jsNumOfString s = .fin q →
      (mapPayload raw).scores.overall = max 0 (min 100 ⌊q + 1/2⌋)) ∧
    (getProp raw "score" = none → (mapPayload raw).scores.overall = 0) := by
  refine ⟨?_, ?_, ?_, ?_⟩
  · intro raw2 hsame
    rw [mapPayload_overall, mapPayload_overall]
    unfold overallRawNum
    rw [hsame]
  · intro q h
    rw [mapPayload_overall]
    have ho : overallRawNum raw = .fin q := by simp [overallRawNum, h]
    rw [ho]
    exact clampRound q
  · intro s q h1 h2
    rw [mapPayload_overall]
    have ho : overallRawNum raw = jsOr0 (jsNumOfString s) := by simp [overallRawNum, h1]
    rw [ho, h2, jsOr0_fin]
    exact clampRound q
  · intro h
    rw [mapPayload_overall]
    have ho : overallRawNum raw = .fin 0 := by simp [overallRawNum, h]
    rw [ho]
    exact clampRound_zero

/-- Payload with both a nested scores.overall and a flat score. -/
def bothOverallPayload : JVal :=
  .obj [("scores", .obj [("overall", .num 90)]), ("score", .num 70)]

/-- Witness for the amended C3: the flat score 70 wins over the nested
90; removing the nested record changes nothing; a numeric string 85 is
accepted; a payload without a flat score gets overall 0. -/
theorem c3_overall_flat_only_witness :
    (mapPayload bothOverallPayload).scores.overall = 70 ∧
    (mapPayload bothOverallPayload).scores.overall
      = (mapPayload (JVal.obj [("score", JVal.num 70)])).scores.overall ∧
    (mapPayload (JVal.obj [("score", JVal.str "85")])).scores.overall = 85 ∧
    (mapPayload nestedOverallPayload).scores.overall = 0 := by
  refine ⟨?_, ?_, ?_, ?_⟩
  · have h := (c3_overall_flat_only bothOverallPayload).2.1 70 rfl
    have hf : (⌊(70:ℚ) + 1/2⌋ : ℤ) = 70 := by norm_num
    rw [h, hf]
    omega
  · exact (c3_overall_flat_only bothOverallPayload).1 (JVal.obj [("score", JVal.num 70)]) rfl
  · have h := (c3_overall_flat_only (JVal.obj [("score", JVal.str "85")])).2.2.1
      "85" 85 rfl (by decide)
    have hf : (⌊(85:ℚ) + 1/2⌋ : ℤ) = 85 := by norm_num
    rw [h, hf]
    omega
  · exact (c3_overall_flat_only nestedOverallPayload).2.2.2 rfl
